import Mathlib

/-!
Shallow embedding of the job intake and dispatch pipeline of
`service/job.go` (package `service` of the distributed-scheduler
repository): stream-to-aggregate assembly, transactional persistence,
post-write reconciliation and the sync/async submission entry points.

Go semantics are modelled explicitly: a call either returns a value,
returns a non-nil `error`, or panics (`GoResult`); a nil `*model.Job`
pointer is `Option Job = none`, and dereferencing it is a panic.
Machine integers (`int32`, `int64`) are modelled as `Int`; no claim
here depends on wrap-around, which is unreachable on any concretely
evaluable input.
-/

namespace DS

/-- Error values surfaced by the service (the `errCode` package's gRPC
errors plus opaque storage/transport errors passed through verbatim). -/
inductive Err where
  | pluginSetEmpty
  | jobNotFound
  | other (msg : String)
  deriving Repr, DecidableEq

/-- Outcome of a Go call: normal return, non-nil error, or panic. -/
inductive GoResult (α : Type) where
  | ok (a : α)
  | err (e : Err)
  | panics (msg : String)
  deriving Repr, DecidableEq

/-- The message of a Go nil-pointer dereference panic. -/
def nilDerefMsg : String :=
  "runtime error: invalid memory address or nil pointer dereference"

/-- `model.Job` — the job row (field set as used by `service/job.go`). -/
structure Job where
  id : Int
  name : String
  type : Int
  pluginSet : String
  isAsync : Int
  isNotify : Int
  label : String
  source : String
  taskExceptionOperation : Int
  size : Int
  status : Int
  result : String
  deriving Repr, DecidableEq

/-- The Go zero value of `model.Job`. -/
def zeroJob : Job :=
  ⟨0, "", 0, "", 0, 0, "", "", 0, 0, 0, ""⟩

/-- `model.Task` — one shard row of a job. -/
structure Task where
  id : Int
  jobId : Int
  sharding : Int
  name : String
  input : List Nat
  plugin : String
  status : Int
  output : String
  deriving Repr, DecidableEq

/-- The Go zero value of `model.Task`. -/
def zeroTask : Task :=
  ⟨0, 0, 0, "", [], "", 0, ""⟩

/-- `dto.JobInfo` — the in-memory aggregate: one (possibly nil) job
pointer plus its ordered task list. -/
structure JobInfo where
  job : Option Job
  taskList : List Task
  deriving Repr, DecidableEq

/-- Modelled from the spec: `dto.JobInfo.AppendSafeTask` (the `dto`
package is not part of the sources) appends one task at the end of the
aggregate's ordered task list; the mutex guarding the original is
irrelevant in the single sequential receive loop. -/
def appendSafeTask (ji : JobInfo) (t : Task) : JobInfo :=
  ⟨ji.job, ji.taskList ++ [t]⟩

/-- One stream message (`SyncSubmitRequest` / `AsyncSubmitRequest`):
job name, plugin pipeline, label, source, exception policy and the raw
data payload; `type` and `isNotify` are carried by async chunks only
and ignored by the sync assembler. -/
structure Chunk where
  name : String
  pluginSet : List String
  label : String
  source : String
  taskExceptionOperation : Int
  data : List Nat
  type : Int
  isNotify : Bool
  deriving Repr, DecidableEq

/-- The Go zero value of a chunk. -/
def zeroChunk : Chunk :=
  ⟨"", [], "", "", 0, [], 0, false⟩

/-- A client stream as seen through `stream.Recv()`: the chunks
delivered in order, then either a clean `io.EOF` (`tailErr = none`) or
a transport error (`tailErr = some e`). -/
structure ChunkStream where
  chunks : List Chunk
  tailErr : Option Err
  deriving Repr, DecidableEq

/-- The job record built from the first chunk by `receiveSyncJobStream`
(struct literal at lines 151-157 of `service/job.go`); all other fields
keep their Go zero values. -/
def mkSyncJob (c : Chunk) : Job :=
  { zeroJob with
    name := c.name
    pluginSet := String.intercalate "," c.pluginSet
    label := c.label
    source := c.source
    taskExceptionOperation := c.taskExceptionOperation }

/-- The job record built from the first chunk by
`receiveAsyncJobStream` (struct literal at lines 192-200 plus the
`IsNotify` conditional at lines 201-203). -/
def mkAsyncJob (c : Chunk) : Job :=
  { mkSyncJob c with
    type := c.type
    isAsync := 1
    isNotify := if c.isNotify then 1 else 0 }

/-- The task built for one chunk (lines 160-165 / 206-211): sharding
counter, name `<jobName>-<sharding>`, the chunk payload as input and
the captured first plugin. -/
def mkTask (jobName : String) (sh : Int) (c : Chunk) (fp : String) : Task :=
  { zeroTask with
    sharding := sh
    name := jobName ++ "-" ++ toString sh
    input := c.data
    plugin := fp }

/-- The receive loop of `receiveSyncJobStream` (lines 138-171),
unrolled over the list of chunks; state: the aggregate so far, the
captured `firstPlugin`, the `sharding` counter.  After the loop,
`jobInfo.Job.Size = int32(len(jobInfo.TaskList))` dereferences the job
pointer, a panic when no chunk arrived. -/
def receiveSyncLoop (te : Option Err) : List Chunk → JobInfo → String → Int → GoResult JobInfo
  | [], ji, _, _ =>
    match te with
    | some e => .err e
    | none =>
      match ji.job with
      | none => .panics nilDerefMsg
      | some j => .ok ⟨some { j with size := (ji.taskList.length : Int) }, ji.taskList⟩
  | c :: rest, ji, fp, sh =>
    if c.pluginSet = [] then .err .pluginSetEmpty
    else
      match ji.job with
      | none =>
        let j := mkSyncJob c
        let fp' := c.pluginSet.headD ""
        receiveSyncLoop te rest (appendSafeTask ⟨some j, ji.taskList⟩ (mkTask j.name sh c fp')) fp' (sh + 1)
      | some j =>
        receiveSyncLoop te rest (appendSafeTask ji (mkTask j.name sh c fp)) fp (sh + 1)

/-- `receiveSyncJobStream` (lines 134-172). -/
def receiveSyncJobStream (st : ChunkStream) : GoResult JobInfo :=
  receiveSyncLoop st.tailErr st.chunks ⟨none, []⟩ "" 0

/-- The receive loop of `receiveAsyncJobStream` (lines 179-217); same
shape as the sync loop, the job record additionally carrying `Type`,
`IsAsync = 1` and `IsNotify` from the first chunk. -/
def receiveAsyncLoop (te : Option Err) : List Chunk → JobInfo → String → Int → GoResult JobInfo
  | [], ji, _, _ =>
    match te with
    | some e => .err e
    | none =>
      match ji.job with
      | none => .panics nilDerefMsg
      | some j => .ok ⟨some { j with size := (ji.taskList.length : Int) }, ji.taskList⟩
  | c :: rest, ji, fp, sh =>
    if c.pluginSet = [] then .err .pluginSetEmpty
    else
      match ji.job with
      | none =>
        let j := mkAsyncJob c
        let fp' := c.pluginSet.headD ""
        receiveAsyncLoop te rest (appendSafeTask ⟨some j, ji.taskList⟩ (mkTask j.name sh c fp')) fp' (sh + 1)
      | some j =>
        receiveAsyncLoop te rest (appendSafeTask ji (mkTask j.name sh c fp)) fp (sh + 1)

/-- `receiveAsyncJobStream` (lines 175-218). -/
def receiveAsyncJobStream (st : ChunkStream) : GoResult JobInfo :=
  receiveAsyncLoop st.tailErr st.chunks ⟨none, []⟩ "" 0

/-- One repository invocation, with its argument where the claims need
it, recorded in arrival order. -/
inductive StorageCall where
  | save
  | batchSave
  | findById (id : Int)
  | listTasks (jobId : Int)
  deriving Repr, DecidableEq

/-- Modelled from the spec: the durable store behind the repositories
(the `repository/impl` package and gorm are not part of the sources) —
committed job and task rows plus the identifier counter storage uses
for newly saved jobs. -/
structure Storage where
  nextId : Int
  jobs : List Job
  tasks : List Task
  deriving Repr, DecidableEq

/-- The repository and storage behaviour a single request observes:
`find`/`list` are the reconciliation reads keyed by the queried
identifier; `saveFail`/`batchFail` inject storage errors into the two
writes of the persistence transaction. -/
structure RepoOracle where
  find : Int → Except Err (Option Job)
  list : Int → Except Err (List Task)
  saveFail : Option Err
  batchFail : Option Err

/-- Modelled from the spec: `JobRepository.Save` — inside the
transaction, upserts the job row and assigns its storage identifier on
first save (gorm writes the generated key back into the passed
struct); saving a nil job pointer is a gorm error. -/
def jobRepoSave (fail : Option Err) (tx : Storage) (oj : Option Job) :
    Except Err (Storage × Job) :=
  match fail with
  | some e => .error e
  | none =>
    match oj with
    | none => .error (.other "invalid value, should be pointer to struct or slice")
    | some j =>
      let j' := if j.id = 0 then { j with id := tx.nextId } else j
      .ok ({ tx with nextId := tx.nextId + 1, jobs := tx.jobs ++ [j'] }, j')

/-- `persistence` (lines 120-131): one transaction that saves the job,
stamps every task's `JobId` with the job's now-known identifier and
batch-inserts the tasks; any error rolls the transaction back (the
returned storage is the original one) and is returned unchanged.  The
in-memory stamping of the aggregate survives a later rollback, as it
does in Go.  Result: storage after commit/rollback, the aggregate as
mutated in memory, the transaction's error, the repository calls made. -/
def persistence (o : RepoOracle) (db : Storage) (ji : JobInfo) :
    Storage × JobInfo × Option Err × List StorageCall :=
  match jobRepoSave o.saveFail db ji.job with
  | .error e => (db, ji, some e, [.save])
  | .ok (tx1, j') =>
    let stamped := ji.taskList.map fun t => { t with jobId := j'.id }
    match o.batchFail with
    | some e => (db, ⟨some j', stamped⟩, some e, [.save, .batchSave])
    | none =>
      ({ tx1 with tasks := tx1.tasks ++ stamped }, ⟨some j', stamped⟩, none,
        [.save, .batchSave])

/-- `reloadJobInfo` (lines 101-117): re-reads the job row by the
aggregate's job identifier, fails with `ErrJobNotFound` when the row is
absent, then re-reads the task list keyed by the reloaded job's
identifier; the reloaded rows replace the aggregate's contents and any
storage error propagates unchanged.  A nil aggregate is replaced by an
empty one, whose nil job pointer the identifier read then dereferences. -/
def reloadJobInfo (o : RepoOracle) (oji : Option JobInfo) :
    GoResult JobInfo × List StorageCall :=
  let ji := oji.getD ⟨none, []⟩
  match ji.job with
  | none => (.panics nilDerefMsg, [])
  | some j =>
    match o.find j.id with
    | .error e => (.err e, [.findById j.id])
    | .ok none => (.err .jobNotFound, [.findById j.id])
    | .ok (some jr) =>
      match o.list jr.id with
      | .error e => (.err e, [.findById j.id, .listTasks jr.id])
      | .ok ts => (.ok ⟨some jr, ts⟩, [.findById j.id, .listTasks jr.id])

/-- Modelled from the spec: the execution engine behind
`ApplicationContext.StartJob` — out of scope here, exposed as
`StartJob(job) -> error`; when invoked it runs the job's tasks,
updating the in-memory job's status and final result, and returns its
error. -/
structure Engine where
  status : Int
  result : String
  err : Option Err

/-- One `StartJob` invocation of the modelled engine. -/
def startJob (eng : Engine) (ji : JobInfo) : JobInfo × Option Err :=
  (⟨ji.job.map fun j => { j with status := eng.status, result := eng.result },
    ji.taskList⟩, eng.err)

/-- The `SyncSubmitResponse` message: id, status, result. -/
structure SyncSubmitResponse where
  id : Int
  status : Int
  result : String
  deriving Repr, DecidableEq

/-- The `AsyncSubmitResponse` message: the assigned job identifier. -/
structure AsyncSubmitResponse where
  id : Int
  deriving Repr, DecidableEq

/-- `SyncSubmit` (lines 66-98): receive, clear `IsAsync`, persist,
reload, run `StartJob` on the request path, and only then send the
response built from the reconciled (and engine-updated) job; every
error aborts the request — `.err e` is the handler returning `e`
without having sent a response.  Result: handler outcome, storage after
the request, repository calls in order. -/
def syncSubmit (o : RepoOracle) (eng : Engine) (db : Storage) (st : ChunkStream) :
    GoResult SyncSubmitResponse × Storage × List StorageCall :=
  match receiveSyncJobStream st with
  | .panics m => (.panics m, db, [])
  | .err e => (.err e, db, [])
  | .ok ji0 =>
    match ji0.job with
    | none => (.panics nilDerefMsg, db, [])
    | some j0 =>
      match persistence o db ⟨some { j0 with isAsync := 0 }, ji0.taskList⟩ with
      | (_, _, some e, calls) => (.err e, db, calls)
      | (db1, ji2, none, calls) =>
        match reloadJobInfo o (some ji2) with
        | (.panics m, calls2) => (.panics m, db1, calls ++ calls2)
        | (.err e, calls2) => (.err e, db1, calls ++ calls2)
        | (.ok ji3, calls2) =>
          match startJob eng ji3 with
          | (_, some e) => (.err e, db1, calls ++ calls2)
          | (ji4, none) =>
            match ji4.job with
            | none => (.panics nilDerefMsg, db1, calls ++ calls2)
            | some j4 => (.ok ⟨j4.id, j4.status, j4.result⟩, db1, calls ++ calls2)

set_option linter.unusedVariables false in
/-- `AsyncSubmit` (lines 29-58): receive, persist, reload, then spawn
`go func() { _ = s.appCtx.StartJob(jobInfo) }()` — a detached call
whose result the request path never observes — and respond with the
assigned identifier.  The engine argument is deliberately unused: the
fourth component records the aggregate handed to the detached call. -/
def asyncSubmit (o : RepoOracle) (eng : Engine) (db : Storage) (st : ChunkStream) :
    GoResult AsyncSubmitResponse × Storage × List StorageCall × Option JobInfo :=
  match receiveAsyncJobStream st with
  | .panics m => (.panics m, db, [], none)
  | .err e => (.err e, db, [], none)
  | .ok ji0 =>
    match persistence o db ji0 with
    | (_, _, some e, calls) => (.err e, db, calls, none)
    | (db1, ji2, none, calls) =>
      match reloadJobInfo o (some ji2) with
      | (.panics m, calls2) => (.panics m, db1, calls ++ calls2, none)
      | (.err e, calls2) => (.err e, db1, calls ++ calls2, none)
      | (.ok ji3, calls2) =>
        match ji3.job with
        | none => (.panics nilDerefMsg, db1, calls ++ calls2, some ji3)
        | some j3 => (.ok ⟨j3.id⟩, db1, calls ++ calls2, some ji3)

/-- Modelled from the spec: the `AsyncNotify` request message (the
`proto/job` package is not part of the sources) — the completion notice
the execution engine would push back. -/
structure AsyncNotifyRequest where
  id : Int
  status : Int
  result : String
  deriving Repr, DecidableEq

/-- `google.protobuf.Empty`, the successful `AsyncNotify` response. -/
structure EmptyResponse where
  deriving Repr, DecidableEq

/-- `AsyncNotify` (lines 61-63): `panic("not implemented")` for every
input. -/
def asyncNotify (_req : AsyncNotifyRequest) : GoResult EmptyResponse :=
  .panics "not implemented"

/-! ## Closed forms of the receive loops -/

/-- The task list the receive loops build for a run of chunks: one task
per chunk, sharding counting up from `sh`. -/
def mkTasks (nm fp : String) : Int → List Chunk → List Task
  | _, [] => []
  | sh, c :: rest => mkTask nm sh c fp :: mkTasks nm fp (sh + 1) rest

lemma mkTasks_length (nm fp : String) (sh : Int) (cs : List Chunk) :
    (mkTasks nm fp sh cs).length = cs.length := by
  induction cs generalizing sh with
  | nil => rfl
  | cons c rest ih => simp [mkTasks, ih]

lemma mkTasks_getD (nm fp : String) (cs : List Chunk) :
    ∀ (sh : Int) (i : Nat), i < cs.length →
      (mkTasks nm fp sh cs).getD i zeroTask =
        mkTask nm (sh + (i : Int)) (cs.getD i zeroChunk) fp := by
  induction cs with
  | nil => intro sh i h; simp at h
  | cons c rest ih =>
    intro sh i h
    cases i with
    | zero => simp [mkTasks, List.getD_cons_zero]
    | succ n =>
      have hn : n < rest.length := by simpa using h
      have harith : sh + 1 + (n : Int) = sh + ((n : Int) + 1) := by omega
      simp only [mkTasks, List.getD_cons_succ]
      rw [ih (sh + 1) n hn, harith]
      norm_num

lemma receiveSyncLoop_closed (j : Job) (fp : String) :
    ∀ (cs : List Chunk) (ts : List Task) (sh : Int),
      (∀ c ∈ cs, c.pluginSet ≠ []) →
      receiveSyncLoop none cs ⟨some j, ts⟩ fp sh =
        .ok ⟨some { j with size := ((ts.length + cs.length : Nat) : Int) },
          ts ++ mkTasks j.name fp sh cs⟩ := by
  intro cs
  induction cs with
  | nil => intro ts sh _; simp [receiveSyncLoop, mkTasks]
  | cons c rest ih =>
    intro ts sh h
    have hc : c.pluginSet ≠ [] := h c (List.mem_cons_self _ _)
    have hrest : ∀ x ∈ rest, x.pluginSet ≠ [] := fun x hx => h x (List.mem_cons_of_mem _ hx)
    simp only [receiveSyncLoop, if_neg hc, appendSafeTask]
    rw [ih (ts ++ [mkTask j.name sh c fp]) (sh + 1) hrest]
    simp [mkTasks]
    omega

lemma receiveSyncJobStream_closed (c : Chunk) (rest : List Chunk)
    (h : ∀ x ∈ c :: rest, x.pluginSet ≠ []) :
    receiveSyncJobStream ⟨c :: rest, none⟩ =
      .ok ⟨some { mkSyncJob c with size := ((c :: rest).length : Int) },
        mkTasks c.name (c.pluginSet.headD "") 0 (c :: rest)⟩ := by
  have hc : c.pluginSet ≠ [] := h c (List.mem_cons_self _ _)
  have hrest : ∀ x ∈ rest, x.pluginSet ≠ [] := fun x hx => h x (List.mem_cons_of_mem _ hx)
  have hname : (mkSyncJob c).name = c.name := rfl
  simp only [receiveSyncJobStream, receiveSyncLoop, if_neg hc, appendSafeTask]
  rw [receiveSyncLoop_closed (mkSyncJob c) (c.pluginSet.headD "") rest
    ([] ++ [mkTask (mkSyncJob c).name 0 c (c.pluginSet.headD "")]) (0 + 1) hrest]
  simp [mkTasks, hname]
  omega

/-! ## The async assembler as a decoration of the sync assembler -/

/-- The three extra fields the async assembler writes into the job
record taken from the first chunk. -/
def augmentJob (t0 n0 : Int) (j : Job) : Job :=
  { j with type := t0, isAsync := 1, isNotify := n0 }

/-- Decorate the job of a successful assembly result; errors and panics
pass through. -/
def mapJobResult (t0 n0 : Int) : GoResult JobInfo → GoResult JobInfo
  | .ok ji => .ok ⟨ji.job.map (augmentJob t0 n0), ji.taskList⟩
  | .err e => .err e
  | .panics m => .panics m

lemma receiveAsyncLoop_eq_map (t0 n0 : Int) (fp : String) :
    ∀ (cs : List Chunk) (te : Option Err) (j : Job) (ts : List Task) (sh : Int),
      receiveAsyncLoop te cs ⟨some (augmentJob t0 n0 j), ts⟩ fp sh =
        mapJobResult t0 n0 (receiveSyncLoop te cs ⟨some j, ts⟩ fp sh) := by
  intro cs
  induction cs with
  | nil =>
    intro te j ts sh
    cases te <;>
      simp [receiveSyncLoop, receiveAsyncLoop, mapJobResult, augmentJob]
  | cons c rest ih =>
    intro te j ts sh
    by_cases hc : c.pluginSet = []
    · simp [receiveSyncLoop, receiveAsyncLoop, hc, mapJobResult]
    · simp only [receiveSyncLoop, receiveAsyncLoop, if_neg hc, appendSafeTask]
      have hname : (augmentJob t0 n0 j).name = j.name := rfl
      rw [hname]
      exact ih te j (ts ++ [mkTask j.name sh c fp]) (sh + 1)

lemma receiveAsync_eq_map (st : ChunkStream) :
    receiveAsyncJobStream st =
      mapJobResult (st.chunks.headD zeroChunk).type
        (if (st.chunks.headD zeroChunk).isNotify then 1 else 0)
        (receiveSyncJobStream st) := by
  obtain ⟨cs, te⟩ := st
  cases cs with
  | nil =>
    cases te <;>
      simp [receiveSyncJobStream, receiveAsyncJobStream, receiveSyncLoop,
        receiveAsyncLoop, mapJobResult]
  | cons c rest =>
    by_cases hc : c.pluginSet = []
    · simp [receiveSyncJobStream, receiveAsyncJobStream, receiveSyncLoop,
        receiveAsyncLoop, hc, mapJobResult]
    · have hj : mkAsyncJob c =
          augmentJob c.type (if c.isNotify then 1 else 0) (mkSyncJob c) := rfl
      have hname : (mkAsyncJob c).name = (mkSyncJob c).name := rfl
      simp only [receiveSyncJobStream, receiveAsyncJobStream, receiveSyncLoop,
        receiveAsyncLoop, if_neg hc, appendSafeTask, List.headD_cons]
      exact receiveAsyncLoop_eq_map c.type (if c.isNotify then 1 else 0)
        (c.pluginSet.headD "") rest te (mkSyncJob c)
        ([] ++ [mkTask (mkSyncJob c).name 0 c (c.pluginSet.headD "")]) (0 + 1)

/-! ## Abort on an empty plugin pipeline -/

lemma receiveSyncLoop_pluginEmpty :
    ∀ (cs : List Chunk) (te : Option Err) (ji : JobInfo) (fp : String) (sh : Int),
      (∃ c ∈ cs, c.pluginSet = []) →
      receiveSyncLoop te cs ji fp sh = .err .pluginSetEmpty := by
  intro cs
  induction cs with
  | nil => intro te ji fp sh h; simp at h
  | cons c rest ih =>
    intro te ji fp sh h
    by_cases hc : c.pluginSet = []
    · simp [receiveSyncLoop, hc]
    · obtain ⟨x, hx, hxe⟩ := h
      rcases List.mem_cons.mp hx with rfl | hx'
      · exact absurd hxe hc
      · obtain ⟨oj, ts⟩ := ji
        cases oj <;> simp only [receiveSyncLoop, if_neg hc] <;>
          exact ih te _ _ _ ⟨x, hx', hxe⟩

lemma receiveSync_pluginEmpty (st : ChunkStream)
    (h : ∃ c ∈ st.chunks, c.pluginSet = []) :
    receiveSyncJobStream st = .err .pluginSetEmpty :=
  receiveSyncLoop_pluginEmpty st.chunks st.tailErr ⟨none, []⟩ "" 0 h

lemma receiveAsync_pluginEmpty (st : ChunkStream)
    (h : ∃ c ∈ st.chunks, c.pluginSet = []) :
    receiveAsyncJobStream st = .err .pluginSetEmpty := by
  rw [receiveAsync_eq_map, receiveSync_pluginEmpty st h]
  rfl

/-! ## Envelope fields of later chunks do not matter -/

lemma receiveSyncLoop_set (c' : Chunk) (j : Job) (fp : String) :
    ∀ (cs : List Chunk) (i : Nat) (te : Option Err) (ts : List Task) (sh : Int),
      i < cs.length →
      (cs.getD i zeroChunk).pluginSet ≠ [] → c'.pluginSet ≠ [] →
      c'.data = (cs.getD i zeroChunk).data →
      receiveSyncLoop te (cs.set i c') ⟨some j, ts⟩ fp sh =
        receiveSyncLoop te cs ⟨some j, ts⟩ fp sh := by
  intro cs
  induction cs with
  | nil => intro i te ts sh h; simp at h
  | cons c rest ih =>
    intro i te ts sh hlen hps hps' hdata
    cases i with
    | zero =>
      have hc : c.pluginSet ≠ [] := by simpa using hps
      have htask : mkTask j.name sh c' fp = mkTask j.name sh c fp := by
        simp only [mkTask]
        rw [show c'.data = c.data from by simpa using hdata]
      simp only [List.set_cons_zero, receiveSyncLoop, if_neg hc, if_neg hps',
        appendSafeTask, htask]
    | succ n =>
      by_cases hc : c.pluginSet = []
      · simp [List.set_cons_succ, receiveSyncLoop, hc]
      · simp only [List.set_cons_succ, receiveSyncLoop, if_neg hc, appendSafeTask]
        exact ih n te (ts ++ [mkTask j.name sh c fp]) (sh + 1)
          (by simpa using hlen) (by simpa using hps) hps' (by simpa using hdata)

lemma receiveSync_set (st : ChunkStream) (i : Nat) (c' : Chunk)
    (h1 : 1 ≤ i) (h2 : i < st.chunks.length)
    (hps : (st.chunks.getD i zeroChunk).pluginSet ≠ []) (hps' : c'.pluginSet ≠ [])
    (hdata : c'.data = (st.chunks.getD i zeroChunk).data) :
    receiveSyncJobStream ⟨st.chunks.set i c', st.tailErr⟩ = receiveSyncJobStream st := by
  obtain ⟨cs, te⟩ := st
  cases cs with
  | nil => simp at h2
  | cons c rest =>
    cases i with
    | zero => exact absurd h1 (by norm_num)
    | succ n =>
      by_cases hc : c.pluginSet = []
      · simp [List.set_cons_succ, receiveSyncJobStream, receiveSyncLoop, hc]
      · simp only [List.set_cons_succ, receiveSyncJobStream, receiveSyncLoop,
          if_neg hc, appendSafeTask]
        exact receiveSyncLoop_set c' (mkSyncJob c) (c.pluginSet.headD "") rest n te
          ([] ++ [mkTask (mkSyncJob c).name 0 c (c.pluginSet.headD "")]) (0 + 1)
          (by simpa using h2) (by simpa using hps) hps' (by simpa using hdata)

lemma receiveAsync_set (st : ChunkStream) (i : Nat) (c' : Chunk)
    (h1 : 1 ≤ i) (h2 : i < st.chunks.length)
    (hps : (st.chunks.getD i zeroChunk).pluginSet ≠ []) (hps' : c'.pluginSet ≠ [])
    (hdata : c'.data = (st.chunks.getD i zeroChunk).data) :
    receiveAsyncJobStream ⟨st.chunks.set i c', st.tailErr⟩ = receiveAsyncJobStream st := by
  rw [receiveAsync_eq_map, receiveAsync_eq_map]
  have hhead : (st.chunks.set i c').headD zeroChunk = st.chunks.headD zeroChunk := by
    obtain ⟨cs, te⟩ := st
    cases cs with
    | nil => simp at h2
    | cons c rest =>
      cases i with
      | zero => exact absurd h1 (by norm_num)
      | succ n => simp [List.set_cons_succ]
  rw [show (⟨st.chunks.set i c', st.tailErr⟩ : ChunkStream).chunks = st.chunks.set i c'
    from rfl, hhead, receiveSync_set st i c' h1 h2 hps hps' hdata]

/-! ## The sync assembler never touches Type, IsAsync, IsNotify -/

lemma receiveSyncLoop_zero_fields :
    ∀ (cs : List Chunk) (te : Option Err) (oj : Option Job) (ts : List Task)
      (fp : String) (sh : Int) (ji' : JobInfo) (j' : Job),
      (∀ j, oj = some j → j.type = 0 ∧ j.isAsync = 0 ∧ j.isNotify = 0) →
      receiveSyncLoop te cs ⟨oj, ts⟩ fp sh = .ok ji' → ji'.job = some j' →
      j'.type = 0 ∧ j'.isAsync = 0 ∧ j'.isNotify = 0 := by
  intro cs
  induction cs with
  | nil =>
    intro te oj ts fp sh ji' j' hinv hok hj'
    cases te with
    | some e => simp [receiveSyncLoop] at hok
    | none =>
      cases oj with
      | none => simp [receiveSyncLoop] at hok
      | some j =>
        simp only [receiveSyncLoop, GoResult.ok.injEq] at hok
        subst hok
        simp only [Option.some.injEq] at hj'
        obtain ⟨h1, h2, h3⟩ := hinv j rfl
        subst hj'
        exact ⟨h1, h2, h3⟩
  | cons c rest ih =>
    intro te oj ts fp sh ji' j' hinv hok hj'
    by_cases hc : c.pluginSet = []
    · simp [receiveSyncLoop, hc] at hok
    · cases oj with
      | none =>
        simp only [receiveSyncLoop, if_neg hc, appendSafeTask] at hok
        refine ih te (some (mkSyncJob c)) _ _ _ ji' j' ?_ hok hj'
        intro j hj
        cases hj
        exact ⟨rfl, rfl, rfl⟩
      | some j =>
        simp only [receiveSyncLoop, if_neg hc, appendSafeTask] at hok
        exact ih te (some j) _ _ _ ji' j' hinv hok hj'

/-! ## Concrete fixtures used by the witnesses -/

/-- Fixture: the spec's concrete scenario's first chunk (name `job1`,
pipeline `p1,p2`). -/
def wChunkA : Chunk :=
  { zeroChunk with name := "job1", pluginSet := ["p1", "p2"], data := [10] }

/-- Fixture: a later chunk with divergent envelope fields. -/
def wChunkB : Chunk :=
  { zeroChunk with name := "other", pluginSet := ["p9"], label := "L", data := [20] }

/-- Fixture: a third chunk. -/
def wChunkC : Chunk :=
  { zeroChunk with pluginSet := ["p1"], data := [30] }

/-- Fixture: a three-chunk stream ending in a clean EOF. -/
def wStream : ChunkStream := ⟨[wChunkA, wChunkB, wChunkC], none⟩

/-- Fixture: the job the sync assembler builds from `wStream`. -/
def wSyncJob : Job := { mkSyncJob wChunkA with size := 3 }

/-- Fixture: the task list assembled from `wStream`. -/
def wTasks : List Task := mkTasks "job1" "p1" 0 [wChunkA, wChunkB, wChunkC]

/-- Fixture: the aggregate the sync assembler returns on `wStream`. -/
def wSyncJobInfo : JobInfo := ⟨some wSyncJob, wTasks⟩

/-- Fixture: the canonical job row reconciliation reads back. -/
def wJobRow : Job := { zeroJob with id := 1, name := "job1" }

/-- Fixture: repositories that find `wJobRow`, list no tasks and inject
no storage failures. -/
def wOracle : RepoOracle :=
  ⟨fun _ => .ok (some wJobRow), fun _ => .ok [], none, none⟩

/-- Fixture: an engine that finishes with status 2 and result `done`. -/
def wEngine : Engine := ⟨2, "done", none⟩

/-- Fixture: the empty store, next identifier 1. -/
def wDb : Storage := ⟨1, [], []⟩

/-! ## The claims -/

/-- Claim C1: for every non-empty chunk sequence (clean EOF, all plugin
pipelines non-empty) both stream assemblers succeed with the same task
list of exactly `n` tasks whose shard indices are `0..n-1` in arrival
order, task `i` being named `<jobName>-<i>` with the job name taken
from the first chunk, its input chunk `i`'s payload and its plugin the
first element of the first chunk's pipeline, and the assembled job's
`size` equals `n`. -/
theorem claim1_assembled_shape (st : ChunkStream)
    (hne : st.chunks ≠ []) (hte : st.tailErr = none)
    (hp : ∀ c ∈ st.chunks, c.pluginSet ≠ []) :
    ∃ jS jA ts,
      receiveSyncJobStream st = .ok ⟨some jS, ts⟩ ∧
      receiveAsyncJobStream st = .ok ⟨some jA, ts⟩ ∧
      ts.length = st.chunks.length ∧
      jS.size = (st.chunks.length : Int) ∧
      jA.size = (st.chunks.length : Int) ∧
      ∀ i : Nat, i < st.chunks.length →
        (ts.getD i zeroTask).sharding = (i : Int) ∧
        (ts.getD i zeroTask).name =
          (st.chunks.headD zeroChunk).name ++ "-" ++ toString (i : Int) ∧
        (ts.getD i zeroTask).input = (st.chunks.getD i zeroChunk).data ∧
        (ts.getD i zeroTask).plugin = (st.chunks.headD zeroChunk).pluginSet.headD "" := by
  obtain ⟨cs, te⟩ := st
  cases hte
  cases cs with
  | nil => exact absurd rfl hne
  | cons c rest =>
    refine ⟨{ mkSyncJob c with size := ((c :: rest).length : Int) },
      augmentJob c.type (if c.isNotify then 1 else 0)
        { mkSyncJob c with size := ((c :: rest).length : Int) },
      mkTasks c.name (c.pluginSet.headD "") 0 (c :: rest), ?_, ?_, ?_, rfl, rfl, ?_⟩
    · exact receiveSyncJobStream_closed c rest hp
    · rw [receiveAsync_eq_map, receiveSyncJobStream_closed c rest hp]
      simp [mapJobResult]
    · simp [mkTasks_length]
    · intro i hi
      rw [mkTasks_getD c.name (c.pluginSet.headD "") (c :: rest) 0 i (by simpa using hi)]
      refine ⟨by simp [mkTask], by simp [mkTask], by simp [mkTask], by simp [mkTask]⟩

/-- Witness for claim C1 at the concrete three-chunk stream. -/
theorem claim1_witness :
    wStream.chunks ≠ [] ∧ wStream.tailErr = none ∧
    (∀ c ∈ wStream.chunks, c.pluginSet ≠ []) ∧
    ∃ jS jA ts,
      receiveSyncJobStream wStream = .ok ⟨some jS, ts⟩ ∧
      receiveAsyncJobStream wStream = .ok ⟨some jA, ts⟩ ∧
      ts.length = wStream.chunks.length ∧
      jS.size = (wStream.chunks.length : Int) ∧
      jA.size = (wStream.chunks.length : Int) ∧
      ∀ i : Nat, i < wStream.chunks.length →
        (ts.getD i zeroTask).sharding = (i : Int) ∧
        (ts.getD i zeroTask).name =
          (wStream.chunks.headD zeroChunk).name ++ "-" ++ toString (i : Int) ∧
        (ts.getD i zeroTask).input = (wStream.chunks.getD i zeroChunk).data ∧
        (ts.getD i zeroTask).plugin = (wStream.chunks.headD zeroChunk).pluginSet.headD "" :=
  ⟨by decide, rfl, by decide,
    claim1_assembled_shape wStream (by decide) rfl (by decide)⟩

/-- Claim C3: a chunk sequence containing an empty plugin pipeline
makes both `SyncSubmit` and `AsyncSubmit` fail with `ErrPluginSetEmpty`
before any storage access: the store is unchanged, the repository call
trace is empty (no `Save`, no `BatchSave`), and no dispatch happens. -/
theorem claim3_plugin_empty_aborts (o : RepoOracle) (eng : Engine) (db : Storage)
    (st : ChunkStream) (h : ∃ c ∈ st.chunks, c.pluginSet = []) :
    syncSubmit o eng db st = (.err .pluginSetEmpty, db, []) ∧
    asyncSubmit o eng db st = (.err .pluginSetEmpty, db, [], none) := by
  have hs := receiveSync_pluginEmpty st h
  have ha := receiveAsync_pluginEmpty st h
  constructor
  · simp [syncSubmit, hs]
  · simp [asyncSubmit, ha]

/-- Witness for claim C3: a stream whose second chunk has an empty
pipeline. -/
theorem claim3_witness :
    (∃ c ∈ [wChunkA, { wChunkB with pluginSet := ([] : List String) }], c.pluginSet = []) ∧
    syncSubmit wOracle wEngine wDb ⟨[wChunkA, { wChunkB with pluginSet := [] }], none⟩ =
      (.err .pluginSetEmpty, wDb, []) ∧
    asyncSubmit wOracle wEngine wDb ⟨[wChunkA, { wChunkB with pluginSet := [] }], none⟩ =
      (.err .pluginSetEmpty, wDb, [], none) :=
  ⟨by decide,
    (claim3_plugin_empty_aborts wOracle wEngine wDb _ (by decide)).1,
    (claim3_plugin_empty_aborts wOracle wEngine wDb _ (by decide)).2⟩

/-- Claim C7 counterexample: replacing the *plugin pipeline* — an
envelope field — of the second chunk with an empty one, keeping its
payload, does not leave the assembled job unchanged: assembly now fails
with `ErrPluginSetEmpty` instead of producing the job. -/
theorem claim7_counterexample :
    ({ wChunkB with pluginSet := ([] : List String) } : Chunk).data = wChunkB.data ∧
    receiveSyncJobStream ⟨[wChunkA, wChunkB], none⟩ =
      .ok ⟨some { mkSyncJob wChunkA with size := 2 }, mkTasks "job1" "p1" 0 [wChunkA, wChunkB]⟩ ∧
    receiveSyncJobStream ⟨[wChunkA, wChunkB].set 1 { wChunkB with pluginSet := [] }, none⟩ =
      .err .pluginSetEmpty :=
  ⟨rfl, by decide, by decide⟩

/-- Claim C7 as amended: for streams of length at least two, replacing
any chunk after the first by a chunk with the same data payload and
arbitrary other envelope fields — provided both the original and the
replacement chunk keep a non-empty plugin pipeline — leaves the whole
assembly result (job record and task list) of both assemblers
unchanged. -/
theorem claim7_amended_first_chunk_authoritative (st : ChunkStream) (i : Nat) (c' : Chunk)
    (h1 : 1 ≤ i) (h2 : i < st.chunks.length)
    (hops : (st.chunks.getD i zeroChunk).pluginSet ≠ [])
    (hnps : c'.pluginSet ≠ [])
    (hdata : c'.data = (st.chunks.getD i zeroChunk).data) :
    receiveSyncJobStream ⟨st.chunks.set i c', st.tailErr⟩ = receiveSyncJobStream st ∧
    receiveAsyncJobStream ⟨st.chunks.set i c', st.tailErr⟩ = receiveAsyncJobStream st :=
  ⟨receiveSync_set st i c' h1 h2 hops hnps hdata,
   receiveAsync_set st i c' h1 h2 hops hnps hdata⟩

/-- Witness for the amended claim C7: rewriting every envelope field of
the second chunk (name, pipeline, label, source, policy, type, notify)
while keeping its payload. -/
theorem claim7_witness :
    (1 : Nat) ≤ 1 ∧ 1 < wStream.chunks.length ∧
    (wStream.chunks.getD 1 zeroChunk).pluginSet ≠ [] ∧
    (⟨"changed", ["q1", "q2"], "zz", "src", 7, [20], 9, true⟩ : Chunk).pluginSet ≠ [] ∧
    (⟨"changed", ["q1", "q2"], "zz", "src", 7, [20], 9, true⟩ : Chunk).data =
      (wStream.chunks.getD 1 zeroChunk).data ∧
    (receiveSyncJobStream ⟨wStream.chunks.set 1 ⟨"changed", ["q1", "q2"], "zz", "src", 7, [20], 9, true⟩, wStream.tailErr⟩ =
        receiveSyncJobStream wStream ∧
      receiveAsyncJobStream ⟨wStream.chunks.set 1 ⟨"changed", ["q1", "q2"], "zz", "src", 7, [20], 9, true⟩, wStream.tailErr⟩ =
        receiveAsyncJobStream wStream) :=
  ⟨by decide, by decide, by decide, by decide, by decide,
    claim7_amended_first_chunk_authoritative wStream 1
      ⟨"changed", ["q1", "q2"], "zz", "src", 7, [20], 9, true⟩
      (by decide) (by decide) (by decide) (by decide) (by decide)⟩

/-- Claim C9 counterexample: on the empty stream the assemblers do not
return normally with a nil job record — reaching the `Job.size`
assignment with a nil job pointer panics. -/
theorem claim9_counterexample :
    receiveSyncJobStream ⟨[], none⟩ ≠ .ok ⟨none, []⟩ ∧
    receiveSyncJobStream ⟨[], none⟩ = .panics nilDerefMsg ∧
    receiveAsyncJobStream ⟨[], none⟩ ≠ .ok ⟨none, []⟩ ∧
    receiveAsyncJobStream ⟨[], none⟩ = .panics nilDerefMsg :=
  ⟨by decide, rfl, by decide, rfl⟩

/-- Claim C9 as amended: on the empty chunk sequence (clean end of
stream before any chunk) both assemblers reach the `Job.size`
assignment with a nil job record and panic with a nil-pointer
dereference; they do not return normally. -/
theorem claim9_amended_empty_stream_panics (st : ChunkStream)
    (h1 : st.chunks = []) (h2 : st.tailErr = none) :
    receiveSyncJobStream st = .panics nilDerefMsg ∧
    receiveAsyncJobStream st = .panics nilDerefMsg := by
  obtain ⟨cs, te⟩ := st
  cases h1
  cases h2
  exact ⟨rfl, rfl⟩

/-- Witness for the amended claim C9 at the empty stream. -/
theorem claim9_witness :
    (⟨[], none⟩ : ChunkStream).chunks = [] ∧
    (⟨[], none⟩ : ChunkStream).tailErr = none ∧
    (receiveSyncJobStream ⟨[], none⟩ = .panics nilDerefMsg ∧
      receiveAsyncJobStream ⟨[], none⟩ = .panics nilDerefMsg) :=
  ⟨rfl, rfl, claim9_amended_empty_stream_panics ⟨[], none⟩ rfl rfl⟩

/-- Claim C10: on every stream the two assemblers fail under exactly
the same conditions with the same errors (and panic alike), and on
success they produce the same task list and the same job record except
for the three fields only the async assembler writes: `Type` (copied
from the first chunk), `IsAsync` (1 async; the sync job already carries
0, so `SyncSubmit`'s overwrite to 0 is an identity) and `IsNotify`
(1 iff the first chunk's notify flag). -/
theorem claim10_sync_async_refinement (st : ChunkStream) :
    (∀ e : Err, receiveSyncJobStream st = .err e ↔ receiveAsyncJobStream st = .err e) ∧
    (∀ m : String, receiveSyncJobStream st = .panics m ↔ receiveAsyncJobStream st = .panics m) ∧
    ∀ (ji : JobInfo) (j : Job), receiveSyncJobStream st = .ok ji → ji.job = some j →
      j.type = 0 ∧ j.isAsync = 0 ∧ j.isNotify = 0 ∧ { j with isAsync := 0 } = j ∧
      receiveAsyncJobStream st =
        .ok ⟨some { j with
          type := (st.chunks.headD zeroChunk).type
          isAsync := 1
          isNotify := if (st.chunks.headD zeroChunk).isNotify then 1 else 0 }, ji.taskList⟩ := by
  have hmap := receiveAsync_eq_map st
  refine ⟨?_, ?_, ?_⟩
  · intro e
    rw [hmap]
    cases hs : receiveSyncJobStream st <;> simp [mapJobResult]
  · intro m
    rw [hmap]
    cases hs : receiveSyncJobStream st <;> simp [mapJobResult]
  · intro ji j hok hj
    obtain ⟨h1, h2, h3⟩ := receiveSyncLoop_zero_fields st.chunks st.tailErr none [] "" 0 ji j
      (by intro j hj; cases hj) hok hj
    refine ⟨h1, h2, h3, ?_, ?_⟩
    · cases j
      simp only [Job.mk.injEq] at h2 ⊢
      simp_all
    · obtain ⟨oj, ts⟩ := ji
      cases hj
      rw [hmap, hok]
      simp [mapJobResult, augmentJob]

/-- Witness for claim C10 at the concrete three-chunk stream. -/
theorem claim10_witness :
    receiveSyncJobStream wStream = .ok wSyncJobInfo ∧
    wSyncJobInfo.job = some wSyncJob ∧
    receiveAsyncJobStream wStream =
      .ok ⟨some { wSyncJob with
        type := (wStream.chunks.headD zeroChunk).type
        isAsync := 1
        isNotify := if (wStream.chunks.headD zeroChunk).isNotify then 1 else 0 },
        wSyncJobInfo.taskList⟩ :=
  ⟨by decide, rfl,
    ((claim10_sync_async_refinement wStream).2.2 wSyncJobInfo wSyncJob
      (by decide) rfl).2.2.2.2⟩

/-- The job row as `JobRepository.Save` leaves it: the storage
identifier is assigned on first save. -/
def savedJob (db : Storage) (j : Job) : Job :=
  if j.id = 0 then { j with id := db.nextId } else j

/-- Every task stamped with the owning job's identifier. -/
def stampTasks (ts : List Task) (jid : Int) : List Task :=
  ts.map fun t => { t with jobId := jid }

/-- Claim C2: `persistence` commits the aggregate atomically inside one
transaction — the job row is saved first (assigning its identifier),
every task is stamped with that identifier, the tasks are
batch-inserted; on any step's error the transaction rolls back (the
store is unchanged, so no job or task row becomes visible) and the
error is returned to the caller unchanged. -/
theorem claim2_persistence_atomic (o : RepoOracle) (db : Storage) (ji : JobInfo)
    (j : Job) (hj : ji.job = some j) :
    (∀ e, o.saveFail = some e →
      persistence o db ji = (db, ji, some e, [.save])) ∧
    (∀ e, o.saveFail = none → o.batchFail = some e →
      persistence o db ji =
        (db, ⟨some (savedJob db j), stampTasks ji.taskList (savedJob db j).id⟩,
          some e, [.save, .batchSave])) ∧
    (o.saveFail = none → o.batchFail = none →
      persistence o db ji =
        ({ nextId := db.nextId + 1, jobs := db.jobs ++ [savedJob db j],
            tasks := db.tasks ++ stampTasks ji.taskList (savedJob db j).id },
          ⟨some (savedJob db j), stampTasks ji.taskList (savedJob db j).id⟩,
          none, [.save, .batchSave]) ∧
      ∀ t ∈ stampTasks ji.taskList (savedJob db j).id, t.jobId = (savedJob db j).id) := by
  refine ⟨?_, ?_, ?_⟩
  · intro e he
    simp [persistence, jobRepoSave, he]
  · intro e hs hb
    simp [persistence, jobRepoSave, hs, hb, hj, savedJob, stampTasks]
  · intro hs hb
    constructor
    · simp [persistence, jobRepoSave, hs, hb, hj, savedJob, stampTasks]
    · intro t ht
      simp only [stampTasks, List.mem_map] at ht
      obtain ⟨t0, _, rfl⟩ := ht
      rfl

/-- Witness for claim C2: committing the concrete three-task aggregate
into the empty store. -/
theorem claim2_witness :
    wSyncJobInfo.job = some wSyncJob ∧
    wOracle.saveFail = none ∧ wOracle.batchFail = none ∧
    (persistence wOracle wDb wSyncJobInfo =
      ({ nextId := wDb.nextId + 1, jobs := wDb.jobs ++ [savedJob wDb wSyncJob],
          tasks := wDb.tasks ++ stampTasks wSyncJobInfo.taskList (savedJob wDb wSyncJob).id },
        ⟨some (savedJob wDb wSyncJob), stampTasks wSyncJobInfo.taskList (savedJob wDb wSyncJob).id⟩,
        none, [.save, .batchSave]) ∧
      ∀ t ∈ stampTasks wSyncJobInfo.taskList (savedJob wDb wSyncJob).id,
        t.jobId = (savedJob wDb wSyncJob).id) :=
  ⟨rfl, rfl, rfl, (claim2_persistence_atomic wOracle wDb wSyncJobInfo wSyncJob rfl).2.2 rfl rfl⟩

/-- Claim C6: `reloadJobInfo` re-reads the job row by the aggregate's
job identifier and the task list by the reloaded job's identifier,
replacing the aggregate's contents; an absent job row (nil, no error)
fails with `ErrJobNotFound`, and a storage error of either read is
propagated to the caller unchanged. -/
theorem claim6_reload (o : RepoOracle) (ji : JobInfo) (j : Job) (hj : ji.job = some j) :
    (∀ e, o.find j.id = .error e →
      reloadJobInfo o (some ji) = (.err e, [.findById j.id])) ∧
    (o.find j.id = .ok none →
      reloadJobInfo o (some ji) = (.err .jobNotFound, [.findById j.id])) ∧
    ∀ jr, o.find j.id = .ok (some jr) →
      (∀ e, o.list jr.id = .error e →
        reloadJobInfo o (some ji) = (.err e, [.findById j.id, .listTasks jr.id])) ∧
      (∀ ts, o.list jr.id = .ok ts →
        reloadJobInfo o (some ji) =
          (.ok ⟨some jr, ts⟩, [.findById j.id, .listTasks jr.id])) := by
  refine ⟨?_, ?_, ?_⟩
  · intro e he
    simp [reloadJobInfo, hj, he]
  · intro he
    simp [reloadJobInfo, hj, he]
  · intro jr hjr
    constructor
    · intro e he
      simp [reloadJobInfo, hj, hjr, he]
    · intro ts hts
      simp [reloadJobInfo, hj, hjr, hts]

/-- Witness for claim C6: reloading the persisted aggregate through the
concrete repositories. -/
theorem claim6_witness :
    (⟨some (savedJob wDb wSyncJob), stampTasks wTasks 1⟩ : JobInfo).job =
      some (savedJob wDb wSyncJob) ∧
    wOracle.find (savedJob wDb wSyncJob).id = .ok (some wJobRow) ∧
    wOracle.list wJobRow.id = .ok [] ∧
    reloadJobInfo wOracle (some ⟨some (savedJob wDb wSyncJob), stampTasks wTasks 1⟩) =
      (.ok ⟨some wJobRow, []⟩,
        [.findById (savedJob wDb wSyncJob).id, .listTasks wJobRow.id]) :=
  ⟨rfl, rfl, rfl,
    (((claim6_reload wOracle ⟨some (savedJob wDb wSyncJob), stampTasks wTasks 1⟩
      (savedJob wDb wSyncJob) rfl).2.2 wJobRow rfl).2 [] rfl)⟩

/-- Claim C4: `SyncSubmit` responds only after `StartJob` has fully
completed on the request path — when receive, persistence and reload
all succeeded, a `StartJob` error becomes the request's failure and no
response is sent, and on `StartJob` success the response carries the
reconciled job's identifier together with its final status and
result. -/
theorem claim4_sync_waits_engine (o : RepoOracle) (eng : Engine) (db : Storage)
    (st : ChunkStream) (ji0 : JobInfo) (j0 : Job) (db1 : Storage) (ji2 ji3 : JobInfo)
    (j3 : Job) (calls calls2 : List StorageCall)
    (h1 : receiveSyncJobStream st = .ok ji0)
    (h2 : ji0.job = some j0)
    (h3 : persistence o db ⟨some { j0 with isAsync := 0 }, ji0.taskList⟩ =
      (db1, ji2, none, calls))
    (h4 : reloadJobInfo o (some ji2) = (.ok ji3, calls2))
    (h5 : ji3.job = some j3) :
    (∀ e, eng.err = some e →
      syncSubmit o eng db st = (.err e, db1, calls ++ calls2)) ∧
    (eng.err = none →
      syncSubmit o eng db st =
        (.ok ⟨j3.id, eng.status, eng.result⟩, db1, calls ++ calls2)) := by
  constructor
  · intro e he
    simp [syncSubmit, h1, h2, h3, h4, h5, startJob, he]
  · intro he
    simp [syncSubmit, h1, h2, h3, h4, h5, startJob, he]

/-- Witness for claim C4: the concrete submission through the concrete
store, repositories and engine. -/
theorem claim4_witness :
    receiveSyncJobStream wStream = .ok wSyncJobInfo ∧
    wSyncJobInfo.job = some wSyncJob ∧
    persistence wOracle wDb ⟨some { wSyncJob with isAsync := 0 }, wSyncJobInfo.taskList⟩ =
      (⟨2, [savedJob wDb wSyncJob], stampTasks wTasks 1⟩,
        ⟨some (savedJob wDb wSyncJob), stampTasks wTasks 1⟩, none, [.save, .batchSave]) ∧
    reloadJobInfo wOracle (some ⟨some (savedJob wDb wSyncJob), stampTasks wTasks 1⟩) =
      (.ok ⟨some wJobRow, []⟩, [.findById 1, .listTasks 1]) ∧
    (⟨some wJobRow, []⟩ : JobInfo).job = some wJobRow ∧
    wEngine.err = none ∧
    syncSubmit wOracle wEngine wDb wStream =
      (.ok ⟨wJobRow.id, wEngine.status, wEngine.result⟩,
        ⟨2, [savedJob wDb wSyncJob], stampTasks wTasks 1⟩,
        [.save, .batchSave] ++ [.findById 1, .listTasks 1]) :=
  ⟨by decide, rfl, by decide, by decide, rfl, rfl,
    (claim4_sync_waits_engine wOracle wEngine wDb wStream wSyncJobInfo wSyncJob
      ⟨2, [savedJob wDb wSyncJob], stampTasks wTasks 1⟩
      ⟨some (savedJob wDb wSyncJob), stampTasks wTasks 1⟩
      ⟨some wJobRow, []⟩ wJobRow [.save, .batchSave] [.findById 1, .listTasks 1]
      (by decide) rfl (by decide) (by decide) rfl).2 rfl⟩

/-- Claim C5: `AsyncSubmit` never observes the detached `StartJob`
call — two runs agreeing on the received chunks, the store and the
repository behaviour but with engines differing in `StartJob`'s
returned error produce identical outcomes (same response with the
assigned identifier, same success, same store, same calls, same
dispatched aggregate). -/
theorem claim5_async_engine_noninterference (o : RepoOracle) (db : Storage)
    (st : ChunkStream) (s : Int) (r : String) (e1 e2 : Option Err) :
    asyncSubmit o ⟨s, r, e1⟩ db st = asyncSubmit o ⟨s, r, e2⟩ db st := rfl

/-- Claim C8: `AsyncNotify` fails for every input with the
not-implemented condition and never returns a successful (empty)
response. -/
theorem claim8_async_notify_unimplemented (req : AsyncNotifyRequest) :
    asyncNotify req = .panics "not implemented" ∧
    ∀ r : EmptyResponse, asyncNotify req ≠ .ok r :=
  ⟨rfl, fun r h => by simp [asyncNotify] at h⟩

end DS
